import Mathlib

/-!
Verification development for the conductor/depsync repository.

Shallow embedding of:
* the branch-name generation (pkg/depsync/depsync.go),
* the GitHub mergeability retry loop and check-status aggregation
  (pkg/adapters/github/client.go),
* the dependency graph builder and inconsistency checker
  (pkg/depgraph), the version oracle (version_detection.go),
* the per-dependency update/merge orchestration state machine
  (pkg/depsync/depsync.go), with external collaborators (dagger workspace
  provider and GitHub forge client) modelled as response environments and
  every external call recorded in a trace.
-/

namespace Conductor

/-! ## Branch name sanitization (depsync.go: sanitizeBranchName / generateBranchName) -/

/-- The invalid characters replaced by sanitizeBranchName, in source order. -/
def invalidChars : List Char := ['/', '.', '\\', ':', '*', '?', '"', '<', '>', '|', ' ']

/-- Models one Go strings.ReplaceAll(s, string(c), "-") for a single character:
non-overlapping single-character replacement is a per-character map. -/
def replaceChar (c : Char) (s : List Char) : List Char :=
  s.map fun ch => if ch = c then '-' else ch

/-- Sequential replacement of every invalid character, as in the source loop. -/
def replaceInvalid (s : List Char) : List Char :=
  invalidChars.foldl (fun acc c => replaceChar c acc) s

/-- Models Go strings.ReplaceAll(result, "--", "-"): one left-to-right
non-overlapping pass. -/
def collapseDoubleHyphen : List Char → List Char
  | '-' :: '-' :: rest => '-' :: collapseDoubleHyphen rest
  | c :: rest => c :: collapseDoubleHyphen rest
  | [] => []

/-- Models Go strings.Trim(result, "-"): drop leading and trailing hyphens. -/
def trimHyphens (s : List Char) : List Char :=
  ((s.dropWhile (· = '-')).reverse.dropWhile (· = '-')).reverse

/-- sanitizeBranchName from pkg/depsync/depsync.go. -/
def sanitizeBranchName (name : String) : String :=
  String.mk (trimHyphens (collapseDoubleHyphen (replaceInvalid name.data)))

/-- generateBranchName from pkg/depsync/depsync.go:
fmt.Sprintf("depsync/update-%s-%s", sanitizeBranchName(modulePath), targetVersion). -/
def generateBranchName (modulePath targetVersion : String) : String :=
  "depsync/update-" ++ sanitizeBranchName modulePath ++ "-" ++ targetVersion

/-! ## GitHub check-status aggregation (client.go: determineCheckStatus) -/

/-- One GitHub check run (status plus conclusion strings, as the Go code reads
them through pointer dereference). -/
structure CheckRun where
  status : String
  conclusion : String
deriving DecidableEq, Repr

/-- CheckStatus from client.go: Status is one of "running", "passed", "failed". -/
structure CheckStatus where
  status : String
deriving DecidableEq, Repr

/-- determineCheckStatus from client.go.  The Go code loops with early returns;
the any-chains below have the same semantics. -/
def determineCheckStatus (checkRuns : List CheckRun) : CheckStatus :=
  if checkRuns.isEmpty then ⟨"running"⟩
  else if checkRuns.any (fun c => c.status == "in_progress" || c.status == "queued") then
    ⟨"running"⟩
  else if checkRuns.any
      (fun c => c.conclusion == "failure" || c.conclusion == "cancelled"
        || c.conclusion == "timed_out") then
    ⟨"failed"⟩
  else ⟨"passed"⟩

/-! ## GitHub mergeability retry loop (client.go: checkMergeConflictsWithRetry)

The forge is modelled by `getState : Nat → Except String String`, giving for
each attempt index either an API error (PullRequests.Get failure) or the
reported mergeable state.  The second component of the result collects the
sleep delays (in seconds) performed by the loop. -/

def maxRetries : Nat := 5

def baseDelaySeconds : Nat := 2

/-- The body of the retry loop.  In the Go source the loop runs
`for attempt := 0; attempt < maxRetries; attempt++`; fuel is
`maxRetries - attempt`, and exhausting the fuel reaches the
"unexpected retry loop exit" line after the loop. -/
def checkMergeConflictsAux (getState : Nat → Except String String) :
    Nat → Nat → Except String Bool × List Nat
  | 0, _ => (.error "unexpected retry loop exit", [])
  | fuel + 1, attempt =>
    match getState attempt with
    | .error e => (.error ("failed to get pull request: " ++ e), [])
    | .ok st =>
      if st = "clean" then (.ok false, [])
      else if st = "conflicting" then (.ok true, [])
      else if st = "unstable" ∨ st = "dirty" ∨ st = "blocked" then (.ok false, [])
      else if st = "unknown" then
        if attempt < maxRetries - 1 then
          match checkMergeConflictsAux getState fuel (attempt + 1) with
          | (r, ds) => (r, baseDelaySeconds * 2 ^ attempt :: ds)
        else
          (.error ("mergeability not yet computed after " ++ toString maxRetries
            ++ " retries, please try again later"), [])
      else (.error ("unknown mergeable state: \"" ++ st ++ "\""), [])

/-- checkMergeConflictsWithRetry from client.go. -/
def checkMergeConflictsWithRetry (getState : Nat → Except String String) :
    Except String Bool × List Nat :=
  checkMergeConflictsAux getState maxRetries 0

/-! ## Semantic versions, Masterminds flavour
(models github.com/Masterminds/semver/v3 NewVersion / LessThan, as used by the
inconsistency checker). -/

/-- A parsed semantic version: numeric core plus prerelease identifiers
(empty list = no prerelease).  Build metadata is ignored by comparison and
therefore not retained. -/
structure SemVer where
  major : Nat
  minor : Nat
  patch : Nat
  pre : List String
deriving DecidableEq, Repr

/-- Split a character list at the first occurrence of `c`; the second
component is `none` when `c` does not occur. -/
def splitAtFirst (c : Char) : List Char → List Char × Option (List Char)
  | [] => ([], none)
  | x :: xs =>
    if x = c then ([], some xs)
    else
      match splitAtFirst c xs with
      | (l, r) => (x :: l, r)

/-- Numeric value of a digit group. -/
def digitsVal (g : List Char) : Nat :=
  g.foldl (fun n c => 10 * n + (c.toNat - '0'.toNat)) 0

/-- A digit group: nonempty, all decimal digits. -/
def isDigits (g : List Char) : Bool :=
  !g.isEmpty && g.all (·.isDigit)

/-- Parse the 1-3 dot-separated numeric core groups, padding with zeros
(Masterminds NewVersion accepts "1" and "1.2"). -/
def parseCore : List (List Char) → Option (Nat × Nat × Nat)
  | [a] => if isDigits a then some (digitsVal a, 0, 0) else none
  | [a, b] =>
    if isDigits a && isDigits b then some (digitsVal a, digitsVal b, 0) else none
  | [a, b, c] =>
    if isDigits a && isDigits b && isDigits c then
      some (digitsVal a, digitsVal b, digitsVal c)
    else none
  | _ => none

/-- A prerelease identifier: nonempty, alphanumerics and hyphens. -/
def isPreIdent (g : List Char) : Bool :=
  !g.isEmpty && g.all (fun c => c.isAlphanum || c = '-')

/-- Models Masterminds semver.NewVersion: optional leading 'v', numeric core,
optional '-prerelease', optional '+metadata' (validated, then ignored). -/
def semverNewVersion (s : String) : Option SemVer :=
  let cs := if s.data.head? = some 'v' then s.data.tail else s.data
  match splitAtFirst '+' cs with
  | (beforeMeta, _) =>
    match splitAtFirst '-' beforeMeta with
    | (core, preRaw) =>
      match parseCore (core.splitOn '.') with
      | none => none
      | some (ma, mi, pa) =>
        match preRaw with
        | none => some ⟨ma, mi, pa, []⟩
        | some p =>
          let ids := p.splitOn '.'
          if ids.all isPreIdent then some ⟨ma, mi, pa, ids.map String.mk⟩
          else none

/-- Compare two prerelease identifiers: numeric identifiers compare
numerically and are lower than alphanumeric ones, which compare lexically. -/
def cmpPreIdent (a b : String) : Ordering :=
  if isDigits a.data && isDigits b.data then compare (digitsVal a.data) (digitsVal b.data)
  else if isDigits a.data then .lt
  else if isDigits b.data then .gt
  else compare a b

/-- Compare prerelease identifier lists; a strict prefix is lower. -/
def cmpPreList : List String → List String → Ordering
  | [], [] => .eq
  | [], _ :: _ => .lt
  | _ :: _, [] => .gt
  | x :: xs, y :: ys =>
    match cmpPreIdent x y with
    | .eq => cmpPreList xs ys
    | o => o

/-- Compare the prerelease components: no prerelease ranks above any
prerelease. -/
def cmpPre (a b : List String) : Ordering :=
  match a, b with
  | [], [] => .eq
  | [], _ :: _ => .gt
  | _ :: _, [] => .lt
  | _, _ => cmpPreList a b

/-- Masterminds semver Compare. -/
def semverCompare (a b : SemVer) : Ordering :=
  match compare a.major b.major with
  | .eq =>
    match compare a.minor b.minor with
    | .eq =>
      match compare a.patch b.patch with
      | .eq => cmpPre a.pre b.pre
      | o => o
    | o => o
  | o => o

/-- Masterminds semver LessThan on parsed versions. -/
def semverLt (a b : SemVer) : Bool :=
  semverCompare a b == .lt

/-- actualVer.LessThan(latestVer) at the string level: false when either side
fails to parse (the checker aborts before comparing in that case). -/
def semverLtStr (cur latest : String) : Bool :=
  match semverNewVersion cur, semverNewVersion latest with
  | some a, some b => semverLt a b
  | _, _ => false

/-! ## Version oracle (version_detection.go: latestSemverTag and
DetectAndSetCurrentVersions), x/mod flavour -/

/-- Parse the literal shape vMAJOR.MINOR.PATCH: a leading 'v' followed by
exactly three nonempty dot-separated digit groups, nothing else.  This is the
model of the regexp ^v[0-9]+\.[0-9]+\.[0-9]+$ from latestSemverTag. -/
def parseVTriple (s : String) : Option (Nat × Nat × Nat) :=
  match s.data with
  | 'v' :: rest =>
    match rest.splitOn '.' with
    | [a, b, c] =>
      if isDigits a && isDigits b && isDigits c then
        some (digitsVal a, digitsVal b, digitsVal c)
      else none
    | _ => none
  | _ => none

/-- semverRE.MatchString from latestSemverTag. -/
def matchesSemverRE (s : String) : Bool :=
  (parseVTriple s).isSome

/-- A digit group in canonical form (no leading zero), as required by
golang.org/x/mod/semver validity. -/
def isCanonNum (g : List Char) : Bool :=
  isDigits g && (g.length == 1 || g.head? != some '0')

/-- Models golang.org/x/mod/semver.Prerelease for the tag names this program
feeds it.  Every string accepted by the vMAJOR.MINOR.PATCH regexp has no '-'
at all, and x/mod returns "" both for canonical versions without a prerelease
part and for invalid version strings (such as regexp matches with leading
zeros), so the result is "" whenever the regexp matched.  For other strings
(where the source's short-circuiting `&&` never evaluates this call) we
return the raw segment from the first '-' up to any '+'. -/
def modPrerelease (s : String) : String :=
  if (parseVTriple s).isSome then ""
  else String.mk ((s.data.dropWhile (· ≠ '-')).takeWhile (· ≠ '+'))

/-- The filter condition of latestSemverTag:
semverRE.MatchString(name) && semver.Prerelease(name) == "". -/
def keepTag (name : String) : Bool :=
  matchesSemverRE name && modPrerelease name == ""

/-- The x/mod comparison key of a regexp-matching tag: `none` for tags that
x/mod considers invalid (a component with a leading zero), `some` triple for
canonical tags.  x/mod ranks every invalid version below every valid one and
all invalid versions equal. -/
def modKey (s : String) : Option (Nat × Nat × Nat) :=
  match s.data with
  | 'v' :: rest =>
    match rest.splitOn '.' with
    | [a, b, c] =>
      if isCanonNum a && isCanonNum b && isCanonNum c then
        some (digitsVal a, digitsVal b, digitsVal c)
      else none
    | _ => none
  | _ => none

/-- Lexicographic weak order on comparison keys (true means left ≤ right). -/
def keyLe (x y : Option (Nat × Nat × Nat)) : Bool :=
  match x, y with
  | none, _ => true
  | some _, none => false
  | some a, some b =>
    decide (a.1 < b.1 ∨ (a.1 = b.1 ∧ (a.2.1 < b.2.1 ∨ (a.2.1 = b.2.1 ∧ a.2.2 ≤ b.2.2))))

/-- Models golang.org/x/mod/semver.Compare(a, b) ≥ 0 on regexp-matching tags.
This is the sort relation used by latestSemverTag's descending sort. -/
def modGe (a b : String) : Bool :=
  keyLe (modKey b) (modKey a)

/-- The tag names kept by latestSemverTag: non-nil tags with non-nil names
matching the regexp and carrying no prerelease (nil tags/names are modelled
as `none`). -/
def tagVersions (tags : List (Option String)) : List String :=
  tags.filterMap fun t =>
    match t with
    | none => none
    | some name => if keepTag name then some name else none

/-- latestSemverTag from version_detection.go: filter, sort descending by
x/mod semver.Compare, take the first element; "" when nothing matched. -/
def latestSemverTag (tags : List (Option String)) : String :=
  let versions := tagVersions tags
  match versions.mergeSort modGe with
  | [] => ""
  | v :: _ => v

/-- A service as the version oracle sees it. -/
structure SvcVersion where
  modulePath : String
  latestVersion : String
deriving DecidableEq, Repr

/-- One loop iteration of DetectAndSetCurrentVersions after ListTags
succeeded: `if latest != "" { svc.LatestVersion = latest }`. -/
def applyDetectedVersion (svc : SvcVersion) (tags : List (Option String)) : SvcVersion :=
  let latest := latestSemverTag tags
  if latest ≠ "" then { svc with latestVersion := latest } else svc

/-- DetectAndSetCurrentVersions from version_detection.go.  The forge is
modelled by `listTags`, mapping a module path to the ListTags outcome;
`ownerRepo` models the repo package helper parseOwnerAndRepo (whose internals
are outside this file's claims): it yields the owner/repo pair, with an empty
component signalling an unparsable module path. -/
def detectAndSetCurrentVersions (ownerRepo : String → String × String)
    (listTags : String → Except String (List (Option String))) :
    List SvcVersion → Except String (List SvcVersion)
  | [] => .ok []
  | svc :: rest =>
    match ownerRepo svc.modulePath with
    | (owner, repoName) =>
      if owner = "" ∨ repoName = "" then
        .error ("invalid module path: " ++ svc.modulePath)
      else
        match listTags svc.modulePath with
        | .error e => .error ("error fetching tags for " ++ svc.modulePath ++ ": " ++ e)
        | .ok tags =>
          match detectAndSetCurrentVersions ownerRepo listTags rest with
          | .error e => .error e
          | .ok rest' => .ok (applyDetectedVersion svc tags :: rest')

/-! ## Dependency graph (pkg/depgraph)

Go pointers are modelled with an arena: a `Graph` owns a list of
`ServiceNode`s, and every `*Service` in the Go code becomes an
`Option Nat` slot index into that arena (`none` = nil pointer).  Pointer
identity of two `*Service` values is equality of their slot indices. -/

/-- Mismatch from pkg/depgraph. -/
structure Mismatch where
  actual : String
  latest : String
deriving DecidableEq, Repr

/-- One graph edge (Dependency from service.go): a pointer to the dependency's
node plus the version pinned by the consumer manifest. -/
structure DepEdge where
  service : Option Nat
  currentVersion : String
deriving DecidableEq, Repr

/-- Service from service.go (RepoURL omitted: it never influences the
behaviour under verification). -/
structure ServiceNode where
  modulePath : String
  dependencies : List (String × DepEdge)
  latestVersion : String
deriving DecidableEq, Repr

/-- The graph: the module-path index (the Go map[string]*Service) plus the
arena of nodes the pointers refer to. -/
structure Graph where
  index : List (String × Option Nat)
  arena : List ServiceNode
deriving DecidableEq, Repr

/-- Dereference a modelled pointer. -/
def resolve (g : Graph) (r : Option Nat) : Option ServiceNode :=
  r.bind fun i => g.arena[i]?

/-- One require directive of a go.mod manifest. -/
structure Require where
  path : String
  version : String
deriving DecidableEq, Repr

/-- RepoModule from builder.go.  `goModParse` models the outcome of
modfile.Parse applied to the raw GoModContent bytes: either the parsed
require list or a parse error. -/
structure RepoModule where
  repoURL : String
  goModParse : Except String (List Require)
deriving Repr

/-- First pass of BuildGraph: one empty Service node per input module path. -/
def initialNodes (modules : List (String × RepoModule)) : List ServiceNode :=
  modules.map fun pr => ⟨pr.1, [], ""⟩

/-- The module-path index assigning each input path its arena slot. -/
def initialIndex (modules : List (String × RepoModule)) : List (String × Option Nat) :=
  modules.enum.map fun pr => (pr.2.1, some pr.1)

/-- Second-pass edge wiring for one module: for each requirement whose path is
an in-scope node, add an edge holding the pinned version and the shared
pointer from the index; requirements outside the input set are dropped. -/
def wireModule (index : List (String × Option Nat)) (reqs : List Require) :
    List (String × DepEdge) :=
  reqs.filterMap fun r =>
    match index.lookup r.path with
    | some ref => some (r.path, ⟨ref, r.version⟩)
    | none => none

/-- Replace the dependency map of the node in slot `i`
(services[modulePath].Dependencies receives the wired edges). -/
def setDeps (arena : List ServiceNode) (i : Nat) (deps : List (String × DepEdge)) :
    List ServiceNode :=
  match arena[i]? with
  | some node => arena.set i { node with dependencies := deps }
  | none => arena

/-- Second pass of BuildGraph over all modules: parse each manifest (a parse
failure is fatal for the whole build) and wire its edges into the arena. -/
def wirePass (index : List (String × Option Nat)) :
    List (String × RepoModule) → List ServiceNode → Except String (List ServiceNode)
  | [], arena => .ok arena
  | (p, rm) :: rest, arena =>
    match rm.goModParse with
    | .error e => .error ("failed to parse go.mod for " ++ p ++ ": " ++ e)
    | .ok reqs =>
      match index.lookup p with
      | some (some i) => wirePass index rest (setDeps arena i (wireModule index reqs))
      | _ => wirePass index rest arena

/-- BuildGraph from builder.go: two passes, so that edges are wired only
after every node exists. -/
def BuildGraph (modules : List (String × RepoModule)) : Except String Graph :=
  match wirePass (initialIndex modules) modules (initialNodes modules) with
  | .error e => .error e
  | .ok arena => .ok ⟨initialIndex modules, arena⟩

/-! ## Inconsistency checker (pkg/depgraph/inconsistency_checker.go) -/

/-- The inner loop of Check over one service's dependency edges.  Output
entries are keyed by (servicePath, dependencyPath). -/
def checkDeps (g : Graph) (svcPath : String) :
    List (String × DepEdge) → Except String (List ((String × String) × Mismatch))
  | [] => .ok []
  | (depPath, dep) :: rest =>
    match resolve g dep.service with
    | none => checkDeps g svcPath rest
    | some depSvc =>
      if depSvc.latestVersion = "" then checkDeps g svcPath rest
      else
        match semverNewVersion dep.currentVersion with
        | none =>
          .error ("failed to parse actual version '" ++ dep.currentVersion
            ++ "' for dependency '" ++ depPath ++ "' in service '" ++ svcPath ++ "'")
        | some actualVer =>
          match semverNewVersion depSvc.latestVersion with
          | none =>
            .error ("failed to parse latest version '" ++ depSvc.latestVersion
              ++ "' for dependency '" ++ depPath ++ "'")
          | some latestVer =>
            match checkDeps g svcPath rest with
            | .error e => .error e
            | .ok out =>
              .ok (if semverLt actualVer latestVer then
                ((svcPath, depPath), ⟨dep.currentVersion, depSvc.latestVersion⟩) :: out
              else out)

/-- The outer loop of Check over the graph's services (nil services are
skipped). -/
def checkAll (g : Graph) :
    List (String × Option Nat) → Except String (List ((String × String) × Mismatch))
  | [] => .ok []
  | (svcPath, ref) :: rest =>
    match resolve g ref with
    | none => checkAll g rest
    | some svc =>
      match checkDeps g svcPath svc.dependencies with
      | .error e => .error e
      | .ok out1 =>
        match checkAll g rest with
        | .error e => .error e
        | .ok out2 => .ok (out1 ++ out2)

/-- Check from inconsistency_checker.go. -/
def Check (g : Graph) : Except String (List ((String × String) × Mismatch)) :=
  checkAll g g.index

/-! ## Update/merge orchestration (pkg/depsync/depsync.go)

The two external collaborators (the dagger workspace provider and the GitHub
forge client) are modelled by an `Env` of per-call responses, mirroring the
one-expectation-per-call mock setup of the repository's unit tests.  Every
external call is recorded, with its interesting arguments, in a trace of
`Event`s, so that temporal claims ("X is never invoked", "Y happens after X")
become statements about the trace. -/

/-- One external call performed by the orchestrator. -/
inductive Event where
  | cloneRepo (repoURL : String)
  | checkBranchExists (branch : String)
  | updateGoDependency (modulePath targetVersion : String)
  | commitAndPush (branch : String)
  | checkPullRequestExists (branch : String)
  | createMergeRequest (branch : String)
  | checkMergeConflicts (pr : Int)
  | deletePullRequest (pr : Int)
  | deleteBranch (branch : String)
  | getPullRequestChecks (pr : Int)
  | mergeMergeRequest (pr : Int)
deriving DecidableEq, Repr

/-- Collaborator responses for processing one dependency. -/
structure Env where
  cloneRepo : Except String Unit
  checkBranchExists : Except String Bool
  updateGoDependency : Except String Unit
  commitAndPush : Except String String
  checkPullRequestExists : Except String Int
  createMergeRequest : Except String Int
  checkMergeConflicts : Except String Bool
  deletePullRequest : Except String Unit
  deleteBranch : Except String Unit
  getPullRequestChecks : Except String CheckStatus
  mergeMergeRequest : Except String Unit
deriving Repr

/-- Config from pkg/config (git author fields omitted: they are passed through
to CommitAndPush but never influence control flow). -/
structure Config where
  repositories : List String
  deleteConflictedPRs : Bool
deriving Repr

/-- True for the workspace-provider calls (dagger adapter); false for forge
calls. -/
def Event.isWorkspaceOp : Event → Bool
  | .cloneRepo _ | .checkBranchExists _ | .updateGoDependency _ _ | .commitAndPush _ => true
  | _ => false

/-- True exactly for a MergeMergeRequest call. -/
def Event.isMergeAttempt : Event → Bool
  | .mergeMergeRequest _ => true
  | _ => false

/-- updateDependency from depsync.go: clone, compute the branch name, check
branch existence (true skips the bump and push and returns the branch name),
bump the dependency, commit and push.  Every failure is propagated. -/
def updateDependency (env : Env) (dep : String) (m : Mismatch) (repoURL : String) :
    Except String String × List Event :=
  match env.cloneRepo with
  | .error e => (.error e, [.cloneRepo repoURL])
  | .ok _ =>
    let branchName := generateBranchName dep m.latest
    match env.checkBranchExists with
    | .error e => (.error e, [.cloneRepo repoURL, .checkBranchExists branchName])
    | .ok true => (.ok branchName, [.cloneRepo repoURL, .checkBranchExists branchName])
    | .ok false =>
      match env.updateGoDependency with
      | .error e =>
        (.error e,
          [.cloneRepo repoURL, .checkBranchExists branchName,
            .updateGoDependency dep m.latest])
      | .ok _ =>
        match env.commitAndPush with
        | .error e =>
          (.error e,
            [.cloneRepo repoURL, .checkBranchExists branchName,
              .updateGoDependency dep m.latest, .commitAndPush branchName])
        | .ok _ =>
          (.ok branchName,
            [.cloneRepo repoURL, .checkBranchExists branchName,
              .updateGoDependency dep m.latest, .commitAndPush branchName])

/-- deleteConflictedPR from depsync.go: close the PR, then delete its branch,
wrapping either failure. -/
def deleteConflictedPR (env : Env) (pr : Int) (branch : String) :
    Except String Unit × List Event :=
  match env.deletePullRequest with
  | .error e => (.error ("failed to close pull request: " ++ e), [.deletePullRequest pr])
  | .ok _ =>
    match env.deleteBranch with
    | .error e =>
      (.error ("failed to delete branch: " ++ e), [.deletePullRequest pr, .deleteBranch branch])
    | .ok _ => (.ok (), [.deletePullRequest pr, .deleteBranch branch])

/-- handlePRConflicts from depsync.go: with the feature disabled do nothing;
otherwise query mergeability and, on conflict, delete the PR and branch.
The Bool result reports whether deletion was performed. -/
def handlePRConflicts (cfg : Config) (env : Env) (pr : Int) (branch : String) :
    Except String Bool × List Event :=
  if !cfg.deleteConflictedPRs then (.ok false, [])
  else
    match env.checkMergeConflicts with
    | .error e => (.error e, [.checkMergeConflicts pr])
    | .ok false => (.ok false, [.checkMergeConflicts pr])
    | .ok true =>
      match deleteConflictedPR env pr branch with
      | (.error e, tr) => (.error e, .checkMergeConflicts pr :: tr)
      | (.ok _, tr) => (.ok true, .checkMergeConflicts pr :: tr)

/-- mergeMergeRequest from depsync.go: merge (squash) and, on success, delete
the branch; a branch-deletion failure is logged but not returned. -/
def mergeMergeRequestStep (env : Env) (pr : Int) (branch : String) :
    Except String Unit × List Event :=
  match env.mergeMergeRequest with
  | .error e => (.error e, [.mergeMergeRequest pr])
  | .ok _ => (.ok (), [.mergeMergeRequest pr, .deleteBranch branch])

/-- checkAndMergeMR from depsync.go: fetch the PR's check status; every
failure (status retrieval or merge) is absorbed, so only the trace is
returned.  A status other than running/passed/failed falls through the Go
switch without action. -/
def checkAndMergeMR (env : Env) (pr : Int) (branch : String) : List Event :=
  match env.getPullRequestChecks with
  | .error _ => [.getPullRequestChecks pr]
  | .ok cs =>
    if cs.status = "running" then [.getPullRequestChecks pr]
    else if cs.status = "passed" then
      .getPullRequestChecks pr :: (mergeMergeRequestStep env pr branch).2
    else [.getPullRequestChecks pr]

/-- manageMergeRequest from depsync.go: look up an existing PR for the branch
(-1 = none).  With no PR, create one and return.  With an existing PR, run
conflict handling; when it deleted the PR, stop; otherwise check and possibly
merge. -/
def manageMergeRequest (cfg : Config) (env : Env) (branch : String) :
    Except String Unit × List Event :=
  match env.checkPullRequestExists with
  | .error e => (.error e, [.checkPullRequestExists branch])
  | .ok pr =>
    if pr = -1 then
      match env.createMergeRequest with
      | .error e => (.error e, [.checkPullRequestExists branch, .createMergeRequest branch])
      | .ok _ => (.ok (), [.checkPullRequestExists branch, .createMergeRequest branch])
    else
      match handlePRConflicts cfg env pr branch with
      | (.error e, tr) => (.error e, .checkPullRequestExists branch :: tr)
      | (.ok true, tr) => (.ok (), .checkPullRequestExists branch :: tr)
      | (.ok false, tr) =>
        (.ok (), .checkPullRequestExists branch :: tr ++ checkAndMergeMR env pr branch)

/-- The body of fixModules' inner loop for one dependency: updateDependency
followed (on success) by manageMergeRequest with the returned branch name. -/
def processDependency (cfg : Config) (env : Env) (dep : String) (m : Mismatch)
    (repoURL : String) : Except String Unit × List Event :=
  match updateDependency env dep m repoURL with
  | (.error e, tr) => (.error e, tr)
  | (.ok branch, tr) =>
    match manageMergeRequest cfg env branch with
    | (r, tr2) => (r, tr ++ tr2)

/-- One (service, dependency, mismatch) work item with its collaborator
responses. -/
structure DepItem where
  service : String
  dep : String
  mismatch : Mismatch
  env : Env
deriving Repr

/-- fixModules from depsync.go: process the mismatched dependencies in
sequence, aborting at the first error. -/
def fixModules (cfg : Config) : List DepItem → Except String Unit × List Event
  | [] => (.ok (), [])
  | it :: rest =>
    match processDependency cfg it.env it.dep it.mismatch ("https://" ++ it.service) with
    | (.error e, tr) => (.error e, tr)
    | (.ok _, tr) =>
      match fixModules cfg rest with
      | (r, tr2) => (r, tr ++ tr2)

/-- The tail of Run (depsync.go lines 102-107), entered when mismatches were
detected: a fixModules failure is wrapped with "failed to fix modules". -/
def runFixModules (cfg : Config) (items : List DepItem) : Except String Unit :=
  match (fixModules cfg items).1 with
  | .error e => .error ("failed to fix modules: " ++ e)
  | .ok _ => .ok ()

/-! ## Trace classification lemmas -/

lemma isWorkspaceOp_not_merge {e : Event} (h : e.isWorkspaceOp = true) :
    e.isMergeAttempt = false := by
  cases e <;> simp_all [Event.isWorkspaceOp, Event.isMergeAttempt]

lemma updateDependency_events (env : Env) (dep : String) (m : Mismatch) (url : String) :
    ∀ e ∈ (updateDependency env dep m url).2, e.isWorkspaceOp = true := by
  rcases env with ⟨c, cb, ug, cp, pre, cmr, cmc, dpr, db, gc, mm⟩
  intro e he
  rcases c with ec | uc
  · simp [updateDependency] at he
    subst he; rfl
  · rcases cb with eb | b
    · simp [updateDependency] at he
      rcases he with h | h <;> subst h <;> rfl
    · cases b
      · rcases ug with eu | uu
        · simp [updateDependency] at he
          rcases he with h | h | h <;> subst h <;> rfl
        · rcases cp with ep | sp <;>
          · simp [updateDependency] at he
            rcases he with h | h | h | h <;> subst h <;> rfl
      · simp [updateDependency] at he
        rcases he with h | h <;> subst h <;> rfl

lemma deleteConflictedPR_events (env : Env) (pr : Int) (b : String) :
    ∀ e ∈ (deleteConflictedPR env pr b).2, e.isWorkspaceOp = false := by
  rcases env with ⟨c, cb, ug, cp, pre, cmr, cmc, dpr, db, gc, mm⟩
  intro e he
  rcases dpr with ed | ud
  · simp [deleteConflictedPR] at he
    subst he; rfl
  · rcases db with eb | ub <;>
    · simp [deleteConflictedPR] at he
      rcases he with h | h <;> subst h <;> rfl

lemma handlePRConflicts_events (cfg : Config) (env : Env) (pr : Int) (b : String) :
    ∀ e ∈ (handlePRConflicts cfg env pr b).2, e.isWorkspaceOp = false := by
  intro e he
  rcases hflag : cfg.deleteConflictedPRs with _ | _
  · simp [handlePRConflicts, hflag] at he
  · rcases hc : env.checkMergeConflicts with ec | bc
    · simp [handlePRConflicts, hflag, hc] at he
      subst he; rfl
    · cases bc
      · simp [handlePRConflicts, hflag, hc] at he
        subst he; rfl
      · rcases hd : deleteConflictedPR env pr b with ⟨r, tr⟩
        have htr : ∀ e ∈ tr, e.isWorkspaceOp = false := by
          intro x hx
          exact deleteConflictedPR_events env pr b x (by rw [hd]; exact hx)
        rcases r with er | ur <;>
        · simp [handlePRConflicts, hflag, hc, hd] at he
          rcases he with h | h
          · subst h; rfl
          · exact htr e h

lemma mergeMergeRequestStep_events (env : Env) (pr : Int) (b : String) :
    ∀ e ∈ (mergeMergeRequestStep env pr b).2, e.isWorkspaceOp = false := by
  intro e he
  rcases hm : env.mergeMergeRequest with em | um
  · simp [mergeMergeRequestStep, hm] at he
    subst he; rfl
  · simp [mergeMergeRequestStep, hm] at he
    rcases he with h | h <;> subst h <;> rfl

lemma checkAndMergeMR_events (env : Env) (pr : Int) (b : String) :
    ∀ e ∈ checkAndMergeMR env pr b, e.isWorkspaceOp = false := by
  intro e he
  rcases hg : env.getPullRequestChecks with eg | cs
  · simp [checkAndMergeMR, hg] at he
    subst he; rfl
  · by_cases h1 : cs.status = "running"
    · simp [checkAndMergeMR, hg, h1] at he
      subst he; rfl
    · by_cases h2 : cs.status = "passed"
      · simp [checkAndMergeMR, hg, h1, h2] at he
        rcases he with h | h
        · subst h; rfl
        · exact mergeMergeRequestStep_events env pr b e h
      · simp [checkAndMergeMR, hg, h1, h2] at he
        subst he; rfl

lemma manageMergeRequest_events (cfg : Config) (env : Env) (b : String) :
    ∀ e ∈ (manageMergeRequest cfg env b).2, e.isWorkspaceOp = false := by
  intro e he
  rcases hp : env.checkPullRequestExists with ep | pr
  · simp [manageMergeRequest, hp] at he
    subst he; rfl
  · by_cases hpr : pr = -1
    · rcases hcr : env.createMergeRequest with ec | nc <;>
      · simp [manageMergeRequest, hp, hpr, hcr] at he
        rcases he with h | h <;> subst h <;> rfl
    · rcases hh : handlePRConflicts cfg env pr b with ⟨r, tr⟩
      have htr : ∀ e ∈ tr, e.isWorkspaceOp = false := by
        intro x hx
        exact handlePRConflicts_events cfg env pr b x (by rw [hh]; exact hx)
      rcases r with er | br
      · simp [manageMergeRequest, hp, hpr, hh] at he
        rcases he with h | h
        · subst h; rfl
        · exact htr e h
      · cases br
        · simp [manageMergeRequest, hp, hpr, hh] at he
          rcases he with h | h | h
          · subst h; rfl
          · exact htr e h
          · exact checkAndMergeMR_events env pr b e h
        · simp [manageMergeRequest, hp, hpr, hh] at he
          rcases he with h | h
          · subst h; rfl
          · exact htr e h

/-! ## Concrete mock configurations and environments used by witnesses -/

/-- Default configuration (conflict-deletion feature enabled). -/
def cfgDefault : Config := ⟨["https://github.com/test/repo"], true⟩

/-- Configuration with the conflict-deletion feature disabled. -/
def cfgNoDelete : Config := ⟨["https://github.com/test/repo"], false⟩

/-- A fully successful environment in which no pull request exists yet for the
computed branch and CI checks would report "passed". -/
def envNoPR : Env :=
  ⟨.ok (), .ok false, .ok (), .ok "depsync/update-b-v1.2.0", .ok (-1), .ok 123,
    .ok false, .ok (), .ok (), .ok ⟨"passed"⟩, .ok ()⟩

/-- An environment in which the branch and a pull request (number 123) already
exist and the forge reports a merge conflict. -/
def envConflict : Env :=
  { envNoPR with
    checkBranchExists := .ok true
    checkPullRequestExists := .ok 123
    checkMergeConflicts := .ok true }

/-- An environment in which the branch and PR 123 exist and fetching the CI
check status fails. -/
def envChecksDown : Env :=
  { envConflict with
    checkMergeConflicts := .ok false
    getPullRequestChecks := .error "api down" }

/-- A work item whose dependency bump fails. -/
def itemBoom : DepItem :=
  ⟨"github.com/test/repo", "github.com/test/dep", ⟨"v1.0.0", "v1.1.0"⟩,
    { envNoPR with updateGoDependency := .error "boom" }⟩

/-- A work item on the existing-PR path whose check-status retrieval fails. -/
def itemAbsorb : DepItem :=
  ⟨"github.com/test/repo", "github.com/test/dep", ⟨"v1.0.0", "v1.1.0"⟩, envChecksDown⟩

/-! ## Claim C1 -/

/-- Claim C1 counterexample: with no existing PR (sentinel -1), a successful
creation (PR 123) and an environment whose CI status would be "passed", the
orchestrator stops right after CreateMergeRequest: the trace holds exactly the
existence check and the creation, and no CI-status check, merge, or branch
deletion happens in the same run — refuting the claim that it "proceeds to
step 8". -/
theorem C1_counterexample :
    envNoPR.checkPullRequestExists = Except.ok (-1) ∧
    envNoPR.createMergeRequest = Except.ok 123 ∧
    envNoPR.getPullRequestChecks = Except.ok ⟨"passed"⟩ ∧
    (manageMergeRequest cfgDefault envNoPR "depsync/update-b-v1.2.0").1 = Except.ok () ∧
    (manageMergeRequest cfgDefault envNoPR "depsync/update-b-v1.2.0").2 =
      [Event.checkPullRequestExists "depsync/update-b-v1.2.0",
        Event.createMergeRequest "depsync/update-b-v1.2.0"] ∧
    Event.getPullRequestChecks 123 ∉
      (manageMergeRequest cfgDefault envNoPR "depsync/update-b-v1.2.0").2 ∧
    Event.mergeMergeRequest 123 ∉
      (manageMergeRequest cfgDefault envNoPR "depsync/update-b-v1.2.0").2 ∧
    Event.deleteBranch "depsync/update-b-v1.2.0" ∉
      (manageMergeRequest cfgDefault envNoPR "depsync/update-b-v1.2.0").2 := by
  refine ⟨rfl, rfl, rfl, rfl, rfl, ?_, ?_, ?_⟩ <;> decide

/-- Claim C1 (amended): when no pull request exists for the computed branch
and creation succeeds, manageMergeRequest returns success immediately after
CreateMergeRequest; the CI-status check and merge of step 8 are not performed
for the newly created PR in the same run (they only happen on a later run,
when the PR already exists). -/
theorem C1_create_then_stop (cfg : Config) (env : Env) (branch : String) (n : Int)
    (hpre : env.checkPullRequestExists = .ok (-1))
    (hcreate : env.createMergeRequest = .ok n) :
    manageMergeRequest cfg env branch =
      (.ok (), [.checkPullRequestExists branch, .createMergeRequest branch]) := by
  simp [manageMergeRequest, hpre, hcreate]

/-- Witness for C1_create_then_stop at a concrete environment. -/
theorem C1_create_then_stop_witness :
    manageMergeRequest cfgDefault envNoPR "depsync/update-b-v1.2.0" =
      (.ok (), [.checkPullRequestExists "depsync/update-b-v1.2.0",
        .createMergeRequest "depsync/update-b-v1.2.0"]) :=
  C1_create_then_stop cfgDefault envNoPR "depsync/update-b-v1.2.0" 123 rfl rfl

/-! ## Claim C2 -/

/-- Claim C2: with the delete-conflicted-PRs feature enabled, an existing PR,
and a reported conflict, processing of the dependency performs
DeletePullRequest and then DeleteBranch, never attempts a merge, and ends as
a terminal non-error outcome. -/
theorem C2_conflict_deferral (cfg : Config) (env : Env) (dep : String) (m : Mismatch)
    (url : String) (pr : Int) (bn : String) (utr : List Event)
    (hflag : cfg.deleteConflictedPRs = true)
    (hupd : updateDependency env dep m url = (.ok bn, utr))
    (hpre : env.checkPullRequestExists = .ok pr)
    (hne : pr ≠ -1)
    (hconf : env.checkMergeConflicts = .ok true)
    (hdp : env.deletePullRequest = .ok ())
    (hdb : env.deleteBranch = .ok ()) :
    processDependency cfg env dep m url =
      (.ok (), utr ++ [.checkPullRequestExists bn, .checkMergeConflicts pr,
        .deletePullRequest pr, .deleteBranch bn]) ∧
    ∀ k, Event.mergeMergeRequest k ∉ (processDependency cfg env dep m url).2 := by
  have hdel : deleteConflictedPR env pr bn = (.ok (), [.deletePullRequest pr, .deleteBranch bn]) := by
    simp [deleteConflictedPR, hdp, hdb]
  have hh : handlePRConflicts cfg env pr bn =
      (.ok true, [.checkMergeConflicts pr, .deletePullRequest pr, .deleteBranch bn]) := by
    simp [handlePRConflicts, hflag, hconf, hdel]
  have hm : manageMergeRequest cfg env bn =
      (.ok (), [.checkPullRequestExists bn, .checkMergeConflicts pr,
        .deletePullRequest pr, .deleteBranch bn]) := by
    simp [manageMergeRequest, hpre, hne, hh]
  have hp : processDependency cfg env dep m url =
      (.ok (), utr ++ [.checkPullRequestExists bn, .checkMergeConflicts pr,
        .deletePullRequest pr, .deleteBranch bn]) := by
    simp [processDependency, hupd, hm]
  refine ⟨hp, ?_⟩
  intro k hk
  rw [hp] at hk
  rcases List.mem_append.1 hk with h | h
  · have hw : (Event.mergeMergeRequest k).isWorkspaceOp = true := by
      apply updateDependency_events env dep m url
      rw [hupd]
      exact h
    simp [Event.isWorkspaceOp] at hw
  · simp at h

/-- Witness for C2_conflict_deferral at a concrete environment. -/
theorem C2_conflict_deferral_witness :
    processDependency cfgDefault envConflict "github.com/test/dep" ⟨"v1.0.0", "v1.1.0"⟩
        "https://github.com/test/repo" =
      (.ok (), [.cloneRepo "https://github.com/test/repo",
        .checkBranchExists "depsync/update-github-com-test-dep-v1.1.0",
        .checkPullRequestExists "depsync/update-github-com-test-dep-v1.1.0",
        .checkMergeConflicts 123, .deletePullRequest 123,
        .deleteBranch "depsync/update-github-com-test-dep-v1.1.0"]) :=
  (C2_conflict_deferral cfgDefault envConflict "github.com/test/dep" ⟨"v1.0.0", "v1.1.0"⟩
    "https://github.com/test/repo" 123 "depsync/update-github-com-test-dep-v1.1.0"
    [.cloneRepo "https://github.com/test/repo",
      .checkBranchExists "depsync/update-github-com-test-dep-v1.1.0"]
    rfl rfl rfl (by decide) rfl rfl rfl).1

/-! ## Claim C4 -/

/-- Claim C4: when the computed branch already exists, the dependency bump
(UpdateGoDependency) and CommitAndPush are never invoked for that dependency
in that run, and processing continues to the pull-request stage with the
existing branch name. -/
theorem C4_idempotent_rerun (cfg : Config) (env : Env) (dep : String) (m : Mismatch)
    (url : String)
    (hclone : env.cloneRepo = .ok ())
    (hbranch : env.checkBranchExists = .ok true) :
    updateDependency env dep m url =
      (.ok (generateBranchName dep m.latest),
        [.cloneRepo url, .checkBranchExists (generateBranchName dep m.latest)]) ∧
    processDependency cfg env dep m url =
      ((manageMergeRequest cfg env (generateBranchName dep m.latest)).1,
        [.cloneRepo url, .checkBranchExists (generateBranchName dep m.latest)] ++
          (manageMergeRequest cfg env (generateBranchName dep m.latest)).2) ∧
    (∀ a b, Event.updateGoDependency a b ∉ (processDependency cfg env dep m url).2) ∧
    (∀ a, Event.commitAndPush a ∉ (processDependency cfg env dep m url).2) := by
  have hud : updateDependency env dep m url =
      (.ok (generateBranchName dep m.latest),
        [.cloneRepo url, .checkBranchExists (generateBranchName dep m.latest)]) := by
    simp [updateDependency, hclone, hbranch]
  have hp : processDependency cfg env dep m url =
      ((manageMergeRequest cfg env (generateBranchName dep m.latest)).1,
        [.cloneRepo url, .checkBranchExists (generateBranchName dep m.latest)] ++
          (manageMergeRequest cfg env (generateBranchName dep m.latest)).2) := by
    simp [processDependency, hud]
  refine ⟨hud, hp, ?_, ?_⟩
  · intro a b hk
    rw [hp] at hk
    rcases List.mem_append.1 hk with h | h
    · simp at h
    · have := manageMergeRequest_events cfg env (generateBranchName dep m.latest) _ h
      simp [Event.isWorkspaceOp] at this
  · intro a hk
    rw [hp] at hk
    rcases List.mem_append.1 hk with h | h
    · simp at h
    · have := manageMergeRequest_events cfg env (generateBranchName dep m.latest) _ h
      simp [Event.isWorkspaceOp] at this

/-- Witness for C4_idempotent_rerun at a concrete environment. -/
theorem C4_idempotent_rerun_witness :
    updateDependency envConflict "github.com/test/dep" ⟨"v1.0.0", "v1.1.0"⟩
        "https://github.com/test/repo" =
      (.ok "depsync/update-github-com-test-dep-v1.1.0",
        [.cloneRepo "https://github.com/test/repo",
          .checkBranchExists "depsync/update-github-com-test-dep-v1.1.0"]) :=
  (C4_idempotent_rerun cfgDefault envConflict "github.com/test/dep" ⟨"v1.0.0", "v1.1.0"⟩
    "https://github.com/test/repo" rfl rfl).1

/-! ## Claim C5 -/

/-- Claim C5: a failure of the dependency bump aborts the run with an error
wrapped as "failed to fix modules: ..." and no further dependency is
processed, whereas a failure of GetPullRequestChecks is absorbed: the run
continues with the remaining dependencies and succeeds when they do. -/
theorem C5_fatal_vs_absorbed :
    (∀ (cfg : Config) (it : DepItem) (rest : List DepItem) (msg : String),
      it.env.cloneRepo = .ok () → it.env.checkBranchExists = .ok false →
      it.env.updateGoDependency = .error msg →
      runFixModules cfg (it :: rest) = .error ("failed to fix modules: " ++ msg) ∧
      (fixModules cfg (it :: rest)).2 =
        [.cloneRepo ("https://" ++ it.service),
          .checkBranchExists (generateBranchName it.dep it.mismatch.latest),
          .updateGoDependency it.dep it.mismatch.latest]) ∧
    (∀ (cfg : Config) (it : DepItem) (rest : List DepItem) (pr : Int) (msg : String),
      cfg.deleteConflictedPRs = false →
      it.env.cloneRepo = .ok () → it.env.checkBranchExists = .ok true →
      it.env.checkPullRequestExists = .ok pr → pr ≠ -1 →
      it.env.getPullRequestChecks = .error msg →
      fixModules cfg (it :: rest) =
        ((fixModules cfg rest).1,
          ([.cloneRepo ("https://" ++ it.service),
            .checkBranchExists (generateBranchName it.dep it.mismatch.latest),
            .checkPullRequestExists (generateBranchName it.dep it.mismatch.latest),
            .getPullRequestChecks pr] : List Event) ++ (fixModules cfg rest).2) ∧
      runFixModules cfg [it] = .ok ()) := by
  constructor
  · rintro cfg ⟨svc, dep, m, env⟩ rest msg hclone hbranch hupd
    dsimp only at hclone hbranch hupd ⊢
    have hud : updateDependency env dep m ("https://" ++ svc) =
        (.error msg,
          [.cloneRepo ("https://" ++ svc),
            .checkBranchExists (generateBranchName dep m.latest),
            .updateGoDependency dep m.latest]) := by
      simp [updateDependency, hclone, hbranch, hupd]
    constructor
    · simp [runFixModules, fixModules, processDependency, hud]
    · simp [fixModules, processDependency, hud]
  · rintro cfg ⟨svc, dep, m, env⟩ rest pr msg hflag hclone hbranch hpre hne hchk
    dsimp only at hclone hbranch hpre hchk ⊢
    have hud : updateDependency env dep m ("https://" ++ svc) =
        (.ok (generateBranchName dep m.latest),
          [.cloneRepo ("https://" ++ svc),
            .checkBranchExists (generateBranchName dep m.latest)]) := by
      simp [updateDependency, hclone, hbranch]
    have hmm : manageMergeRequest cfg env (generateBranchName dep m.latest) =
        (.ok (), [.checkPullRequestExists (generateBranchName dep m.latest),
          .getPullRequestChecks pr]) := by
      simp [manageMergeRequest, hpre, hne, handlePRConflicts, hflag, checkAndMergeMR, hchk]
    have hpd : processDependency cfg env dep m ("https://" ++ svc) =
        (.ok (), [.cloneRepo ("https://" ++ svc),
          .checkBranchExists (generateBranchName dep m.latest),
          .checkPullRequestExists (generateBranchName dep m.latest),
          .getPullRequestChecks pr]) := by
      simp [processDependency, hud, hmm]
    constructor
    · simp [fixModules, hpd]
    · simp [runFixModules, fixModules, hpd]

/-- Witness for C5_fatal_vs_absorbed: a concrete bump failure aborts with the
wrapped message; a concrete check-status failure is absorbed and the run
succeeds. -/
theorem C5_fatal_vs_absorbed_witness :
    runFixModules cfgDefault [itemBoom] = .error "failed to fix modules: boom" ∧
    runFixModules cfgNoDelete [itemAbsorb] = .ok () :=
  ⟨(C5_fatal_vs_absorbed.1 cfgDefault itemBoom [] "boom" rfl rfl rfl).1,
    (C5_fatal_vs_absorbed.2 cfgNoDelete itemAbsorb [] 123 "api down" rfl rfl rfl rfl
      (by decide) rfl).2⟩

/-! ## Claim C3 -/

/-- Claim C3: the mergeability check maps "clean" to no-conflict,
"conflicting" to conflict, and "unstable"/"dirty"/"blocked" to no-conflict;
on "unknown" it retries with the delay doubling from a 2-second base, bounded
at 5 attempts total, surfacing the fatal not-yet-computed error after
exhaustion; any other state is a fatal unrecognized-state error. -/
theorem C3_mergeability_mapping (getState : Nat → Except String String) :
    (getState 0 = .ok "clean" →
      checkMergeConflictsWithRetry getState = (.ok false, [])) ∧
    (getState 0 = .ok "conflicting" →
      checkMergeConflictsWithRetry getState = (.ok true, [])) ∧
    (∀ st, st ∈ ["unstable", "dirty", "blocked"] → getState 0 = .ok st →
      checkMergeConflictsWithRetry getState = (.ok false, [])) ∧
    ((∀ i, i < maxRetries → getState i = .ok "unknown") →
      checkMergeConflictsWithRetry getState =
        (.error "mergeability not yet computed after 5 retries, please try again later",
          [2, 4, 8, 16])) ∧
    (∀ st, getState 0 = .ok st →
      st ∉ ["clean", "conflicting", "unstable", "dirty", "blocked", "unknown"] →
      checkMergeConflictsWithRetry getState =
        (.error ("unknown mergeable state: \"" ++ st ++ "\""), [])) := by
  refine ⟨?_, ?_, ?_, ?_, ?_⟩
  · intro h
    simp [checkMergeConflictsWithRetry, maxRetries, checkMergeConflictsAux, h]
  · intro h
    simp [checkMergeConflictsWithRetry, maxRetries, checkMergeConflictsAux, h]
  · intro st hst h
    simp only [List.mem_cons, List.not_mem_nil, or_false] at hst
    rcases hst with h1 | h1 | h1 <;> subst h1 <;>
      simp [checkMergeConflictsWithRetry, maxRetries, checkMergeConflictsAux, h]
  · intro h
    have h0 := h 0 (by simp [maxRetries])
    have h1 := h 1 (by simp [maxRetries])
    have h2 := h 2 (by simp [maxRetries])
    have h3 := h 3 (by simp [maxRetries])
    have h4 := h 4 (by simp [maxRetries])
    simp only [checkMergeConflictsWithRetry, maxRetries, baseDelaySeconds,
      checkMergeConflictsAux, h0, h1, h2, h3, h4]
    rfl
  · intro st h hnot
    simp only [List.mem_cons, List.not_mem_nil, or_false, not_or] at hnot
    obtain ⟨n1, n2, n3, n4, n5, n6⟩ := hnot
    simp [checkMergeConflictsWithRetry, maxRetries, checkMergeConflictsAux, h,
      n1, n2, n3, n4, n5, n6]

/-- Witness for C3_mergeability_mapping: the clean state and the
all-unknown exhaustion with its doubling delays, at concrete responses. -/
theorem C3_mergeability_mapping_witness :
    checkMergeConflictsWithRetry (fun _ => Except.ok "clean") = (.ok false, []) ∧
    checkMergeConflictsWithRetry (fun _ => Except.ok "unknown") =
      (.error "mergeability not yet computed after 5 retries, please try again later",
        [2, 4, 8, 16]) :=
  ⟨(C3_mergeability_mapping (fun _ => Except.ok "clean")).1 rfl,
    (C3_mergeability_mapping (fun _ => Except.ok "unknown")).2.2.2.1 (fun _ _ => rfl)⟩

/-! ## Claim C10 -/

/-- Claim C10: an empty check-run list yields status "running" (never
"passed"), so a PR without CI checks is not auto-merged in that run; any
in-progress or queued run forces "running"; with no run in progress, any
failing conclusion forces "failed" over "passed". -/
theorem C10_check_aggregation :
    determineCheckStatus [] = ⟨"running"⟩ ∧
    (∀ (env : Env) (pr : Int) (branch : String),
      env.getPullRequestChecks = .ok (determineCheckStatus []) →
      checkAndMergeMR env pr branch = [.getPullRequestChecks pr]) ∧
    (∀ (runs : List CheckRun) (c : CheckRun), c ∈ runs →
      (c.status = "in_progress" ∨ c.status = "queued") →
      determineCheckStatus runs = ⟨"running"⟩) ∧
    (∀ (runs : List CheckRun) (c : CheckRun), c ∈ runs →
      (∀ d ∈ runs, d.status ≠ "in_progress" ∧ d.status ≠ "queued") →
      (c.conclusion = "failure" ∨ c.conclusion = "cancelled" ∨ c.conclusion = "timed_out") →
      determineCheckStatus runs = ⟨"failed"⟩) := by
  refine ⟨rfl, ?_, ?_, ?_⟩
  · intro env pr branch h
    simp [checkAndMergeMR, h, determineCheckStatus]
  · intro runs c hc hst
    have hne : runs.isEmpty = false := by
      cases runs
      · simp at hc
      · rfl
    have hany : runs.any (fun c => c.status == "in_progress" || c.status == "queued") = true := by
      rw [List.any_eq_true]
      exact ⟨c, hc, by rcases hst with h | h <;> simp [h]⟩
    simp [determineCheckStatus, hne, hany]
  · intro runs c hc hnone hconc
    have hne : runs.isEmpty = false := by
      cases runs
      · simp at hc
      · rfl
    have hany1 : runs.any (fun c => c.status == "in_progress" || c.status == "queued") = false := by
      rw [List.any_eq_false]
      intro d hd
      have := hnone d hd
      simp [this.1, this.2]
    have hany2 : runs.any
        (fun c => c.conclusion == "failure" || c.conclusion == "cancelled"
          || c.conclusion == "timed_out") = true := by
      rw [List.any_eq_true]
      exact ⟨c, hc, by rcases hconc with h | h | h <;> simp [h]⟩
    simp [determineCheckStatus, hne, hany1, hany2]

/-- Witness for C10_check_aggregation: the empty-checks PR is left unmerged, a
queued run forces "running", and a failure beats a success. -/
theorem C10_check_aggregation_witness :
    checkAndMergeMR { envNoPR with getPullRequestChecks := .ok (determineCheckStatus []) }
        123 "b" = [.getPullRequestChecks 123] ∧
    determineCheckStatus [⟨"queued", "x"⟩, ⟨"completed", "success"⟩] = ⟨"running"⟩ ∧
    determineCheckStatus [⟨"completed", "failure"⟩, ⟨"completed", "success"⟩] = ⟨"failed"⟩ :=
  ⟨C10_check_aggregation.2.1
      { envNoPR with getPullRequestChecks := .ok (determineCheckStatus []) } 123 "b" rfl,
    C10_check_aggregation.2.2.1 [⟨"queued", "x"⟩, ⟨"completed", "success"⟩]
      ⟨"queued", "x"⟩ (by decide) (Or.inr rfl),
    C10_check_aggregation.2.2.2 [⟨"completed", "failure"⟩, ⟨"completed", "success"⟩]
      ⟨"completed", "failure"⟩ (by decide) (by decide) (Or.inl rfl)⟩

/-! ## Claim C9 -/

lemma mem_foldl_replace (cs : List Char) (s : List Char) :
    ∀ ch ∈ cs.foldl (fun acc c => replaceChar c acc) s, ch = '-' ∨ (ch ∈ s ∧ ch ∉ cs) := by
  induction cs generalizing s with
  | nil => intro ch h; exact Or.inr ⟨h, by simp⟩
  | cons c rest ih =>
    intro ch h
    rcases ih (replaceChar c s) ch h with h1 | ⟨h1, h2⟩
    · exact Or.inl h1
    · simp only [replaceChar, List.mem_map] at h1
      obtain ⟨a, ha, hrepl⟩ := h1
      by_cases hac : a = c
      · simp [hac] at hrepl
        exact Or.inl hrepl.symm
      · rw [if_neg hac] at hrepl
        subst hrepl
        refine Or.inr ⟨ha, ?_⟩
        simp only [List.mem_cons, not_or]
        exact ⟨hac, h2⟩

lemma mem_collapseDoubleHyphen (s : List Char) :
    ∀ ch ∈ collapseDoubleHyphen s, ch ∈ s := by
  induction s using collapseDoubleHyphen.induct with
  | case1 rest ih =>
    intro ch h
    rw [collapseDoubleHyphen] at h
    rcases List.mem_cons.1 h with h1 | h1
    · simp [h1]
    · simp [ih ch h1]
  | case2 c rest hne ih =>
    intro ch h
    rw [collapseDoubleHyphen.eq_def] at h
    split at h
    · rename_i rest2 heq
      injection heq with hc hrest
      exact (hne rest2 hc hrest).elim
    · rename_i c2 rest2 hne2 heq
      injection heq with hc hrest
      subst hc; subst hrest
      rcases List.mem_cons.1 h with h1 | h1
      · exact List.mem_cons.2 (Or.inl h1)
      · exact List.mem_cons.2 (Or.inr (ih ch h1))
    · rename_i heq
      exact (List.cons_ne_nil _ _ heq).elim
  | case3 => intro ch h; simp [collapseDoubleHyphen] at h

lemma mem_trimHyphens (s : List Char) : ∀ ch ∈ trimHyphens s, ch ∈ s := by
  intro ch h
  unfold trimHyphens at h
  rw [List.mem_reverse] at h
  have h2 := (List.dropWhile_sublist _).mem h
  rw [List.mem_reverse] at h2
  exact (List.dropWhile_sublist _).mem h2

lemma sanitize_no_invalid (name : String) :
    ∀ ch ∈ (sanitizeBranchName name).data, ch ∉ invalidChars := by
  intro ch h
  have h1 : ch ∈ trimHyphens (collapseDoubleHyphen (replaceInvalid name.data)) := h
  have h2 := mem_collapseDoubleHyphen _ ch (mem_trimHyphens _ ch h1)
  rcases mem_foldl_replace invalidChars name.data ch h2 with h3 | ⟨_, h3⟩
  · subst h3; decide
  · exact h3

/-- Claim C9 counterexample: the branch name generated for module path
"github.com/test/dep" at version "v1.1.0" still contains a '/' (from the
literal "depsync/update-" prefix) and '.' characters (from the unsanitized
target version), refuting the claim that in the yielded branch string each
occurrence of '/', '.', and space is replaced with '-'. -/
theorem C9_counterexample :
    generateBranchName "github.com/test/dep" "v1.1.0" =
      "depsync/update-github-com-test-dep-v1.1.0" ∧
    '/' ∈ (generateBranchName "github.com/test/dep" "v1.1.0").data ∧
    '.' ∈ (generateBranchName "github.com/test/dep" "v1.1.0").data := by
  refine ⟨rfl, ?_, ?_⟩ <;> decide

/-- Claim C9 (amended): generateBranchName is deterministic (identical inputs
yield an identical string) and equals the literal prefix "depsync/update-"
followed by the sanitized module path, a hyphen, and the target version taken
verbatim; the sanitized module-path component contains none of the invalid
characters (each occurrence of '/', '.', space, and the other listed
characters having been replaced with '-', with one double-hyphen collapse
pass and hyphen trimming), while the fixed prefix keeps its '/' and the
version keeps its dots. -/
theorem C9_branch_name (mp v mp' v' : String) (h1 : mp = mp') (h2 : v = v') :
    generateBranchName mp v = generateBranchName mp' v' ∧
    generateBranchName mp v = "depsync/update-" ++ sanitizeBranchName mp ++ "-" ++ v ∧
    ∀ ch ∈ (sanitizeBranchName mp).data, ch ∉ invalidChars := by
  subst h1; subst h2
  exact ⟨rfl, rfl, sanitize_no_invalid mp⟩

/-- Witness for C9_branch_name at concrete inputs. -/
theorem C9_branch_name_witness :
    generateBranchName "github.com/test/dep" "v1.1.0" =
      "depsync/update-" ++ sanitizeBranchName "github.com/test/dep" ++ "-" ++ "v1.1.0" ∧
    ∀ ch ∈ (sanitizeBranchName "github.com/test/dep").data, ch ∉ invalidChars :=
  ⟨(C9_branch_name "github.com/test/dep" "v1.1.0" "github.com/test/dep" "v1.1.0" rfl rfl).2.1,
    (C9_branch_name "github.com/test/dep" "v1.1.0" "github.com/test/dep" "v1.1.0" rfl rfl).2.2⟩

/-! ## Claim C8 -/

/-- The pointer-identity property of one node's edges with respect to the
module-path index: every edge's Service pointer is exactly the pointer the
root index stores for that module path. -/
def NodeEdgesOK (index : List (String × Option Nat)) (node : ServiceNode) : Prop :=
  ∀ pr ∈ node.dependencies, index.lookup pr.1 = some pr.2.service

lemma mem_wireModule (index : List (String × Option Nat)) (reqs : List Require) :
    ∀ pr ∈ wireModule index reqs, index.lookup pr.1 = some pr.2.service := by
  intro pr h
  simp only [wireModule, List.mem_filterMap] at h
  obtain ⟨r, _, heq⟩ := h
  cases hl : index.lookup r.path with
  | none => rw [hl] at heq; simp at heq
  | some ref =>
    rw [hl] at heq
    simp only [Option.some.injEq] at heq
    subst heq
    exact hl

lemma setDeps_preserves (index : List (String × Option Nat)) (arena : List ServiceNode)
    (i : Nat) (deps : List (String × DepEdge))
    (harena : ∀ node ∈ arena, NodeEdgesOK index node)
    (hdeps : ∀ pr ∈ deps, index.lookup pr.1 = some pr.2.service) :
    ∀ node ∈ setDeps arena i deps, NodeEdgesOK index node := by
  intro node hnode
  unfold setDeps at hnode
  cases hg : arena[i]? with
  | none => rw [hg] at hnode; exact harena node hnode
  | some nd =>
    rw [hg] at hnode
    rcases List.mem_or_eq_of_mem_set hnode with h | h
    · exact harena node h
    · subst h
      intro pr hpr
      exact hdeps pr hpr

lemma wirePass_preserves (index : List (String × Option Nat)) :
    ∀ (mods : List (String × RepoModule)) (arena arena' : List ServiceNode),
      (∀ node ∈ arena, NodeEdgesOK index node) →
      wirePass index mods arena = .ok arena' →
      ∀ node ∈ arena', NodeEdgesOK index node := by
  intro mods
  induction mods with
  | nil =>
    intro arena arena' harena hw
    simp only [wirePass, Except.ok.injEq] at hw
    subst hw
    exact harena
  | cons hd tl ih =>
    intro arena arena' harena hw
    rcases hd with ⟨p, rm⟩
    cases hparse : rm.goModParse with
    | error e => rw [wirePass, hparse] at hw; simp at hw
    | ok reqs =>
      rw [wirePass, hparse] at hw
      cases hl : index.lookup p with
      | none =>
        rw [hl] at hw
        exact ih arena arena' harena hw
      | some ref =>
        cases ref with
        | none =>
          rw [hl] at hw
          exact ih arena arena' harena hw
        | some i =>
          rw [hl] at hw
          exact ih (setDeps arena i (wireModule index reqs)) arena'
            (setDeps_preserves index arena i (wireModule index reqs) harena
              (mem_wireModule index reqs)) hw

/-- Claim C8: on every successful build, the index is exactly the first-pass
enumeration of the input module paths (one node per path), and every edge's
Service pointer is identical to the pointer the root index stores for that
dependency's module path: graph[A].Dependencies[B].Service is
pointer-identical to graph[B]. -/
theorem C8_shared_instance (modules : List (String × RepoModule)) (g : Graph)
    (h : BuildGraph modules = .ok g) :
    g.index = initialIndex modules ∧
    g.index.map Prod.fst = modules.map Prod.fst ∧
    (∀ node ∈ g.arena, ∀ pr ∈ node.dependencies,
      g.index.lookup pr.1 = some pr.2.service) ∧
    (∀ a ra svc, (a, ra) ∈ g.index → resolve g ra = some svc →
      ∀ pr ∈ svc.dependencies, g.index.lookup pr.1 = some pr.2.service) := by
  unfold BuildGraph at h
  cases hw : wirePass (initialIndex modules) modules (initialNodes modules) with
  | error e => rw [hw] at h; simp at h
  | ok arena =>
    rw [hw] at h
    simp only [Except.ok.injEq] at h
    subst h
    have hinit : ∀ node ∈ initialNodes modules, NodeEdgesOK (initialIndex modules) node := by
      intro node hnode
      simp only [initialNodes, List.mem_map] at hnode
      obtain ⟨pr, _, heq⟩ := hnode
      subst heq
      intro e he
      simp at he
    have hall := wirePass_preserves (initialIndex modules) modules
      (initialNodes modules) arena hinit hw
    refine ⟨rfl, ?_, hall, ?_⟩
    · have h3 := List.enum_map_snd modules
      unfold initialIndex
      conv_rhs => rw [← h3]
      rw [List.map_map, List.map_map]
      rfl
    · intro a ra svc _ hres pr hpr
      rcases ra with _ | i
      · simp [resolve] at hres
      · simp only [resolve, Option.bind_some] at hres
        exact hall svc (List.getElem?_mem hres) pr hpr

/-- Concrete two-module manifest set: service a requires in-scope service b
and an out-of-scope module. -/
def modulesW : List (String × RepoModule) :=
  [("github.com/x/a",
    ⟨"https://github.com/x/a", .ok [⟨"github.com/x/b", "v1.0.0"⟩, ⟨"github.com/ext/c", "v9.9.9"⟩]⟩),
   ("github.com/x/b", ⟨"https://github.com/x/b", .ok []⟩)]

/-- The graph BuildGraph produces for modulesW: the external requirement is
dropped and the edge to b holds the shared pointer (slot 1). -/
def graphW : Graph :=
  ⟨[("github.com/x/a", some 0), ("github.com/x/b", some 1)],
    [⟨"github.com/x/a", [("github.com/x/b", ⟨some 1, "v1.0.0"⟩)], ""⟩,
      ⟨"github.com/x/b", [], ""⟩]⟩

/-- Witness for C8_shared_instance: in the concrete build, the edge a→b holds
exactly the pointer the root index stores for b. -/
theorem C8_shared_instance_witness :
    graphW.index.lookup "github.com/x/b" = some (some 1) :=
  (C8_shared_instance modulesW graphW rfl).2.2.1
    ⟨"github.com/x/a", [("github.com/x/b", ⟨some 1, "v1.0.0"⟩)], ""⟩ (by decide)
    ("github.com/x/b", ⟨some 1, "v1.0.0"⟩) (by decide)

/-! ## Claim C7 -/

lemma keepTag_eq (name : String) : keepTag name = matchesSemverRE name := by
  by_cases h : (parseVTriple name).isSome <;>
    simp [keepTag, matchesSemverRE, modPrerelease, h]

lemma mem_tagVersions (tags : List (Option String)) (name : String) :
    name ∈ tagVersions tags ↔ some name ∈ tags ∧ matchesSemverRE name = true := by
  simp only [tagVersions, List.mem_filterMap]
  constructor
  · rintro ⟨t, ht, heq⟩
    cases t with
    | none => simp at heq
    | some s =>
      by_cases hk : keepTag s
      · simp only [if_pos hk, Option.some.injEq] at heq
        subst heq
        exact ⟨ht, by rw [← keepTag_eq]; exact hk⟩
      · simp [hk] at heq
  · rintro ⟨ht, hm⟩
    refine ⟨some name, ht, ?_⟩
    have hk : keepTag name = true := by rw [keepTag_eq]; exact hm
    simp [hk]

lemma keyLe_refl (x : Option (Nat × Nat × Nat)) : keyLe x x = true := by
  cases x with
  | none => rfl
  | some a => simp [keyLe]

lemma keyLe_total (x y : Option (Nat × Nat × Nat)) : (keyLe x y || keyLe y x) = true := by
  cases x with
  | none => simp [keyLe]
  | some a =>
    cases y with
    | none => simp [keyLe]
    | some b =>
      simp only [keyLe, Bool.or_eq_true]
      rw [decide_eq_true_eq, decide_eq_true_eq]
      omega

lemma keyLe_trans (x y z : Option (Nat × Nat × Nat))
    (h1 : keyLe x y = true) (h2 : keyLe y z = true) : keyLe x z = true := by
  cases x with
  | none => rfl
  | some a =>
    cases y with
    | none => simp [keyLe] at h1
    | some b =>
      cases z with
      | none => simp [keyLe] at h2
      | some c =>
        simp only [keyLe] at h1 h2 ⊢
        rw [decide_eq_true_eq] at h1 h2 ⊢
        omega

lemma modGe_refl (a : String) : modGe a a = true := keyLe_refl _

lemma modGe_total (a b : String) : (modGe a b || modGe b a) = true := keyLe_total _ _

lemma modGe_trans (a b c : String) (h1 : modGe a b = true) (h2 : modGe b c = true) :
    modGe a c = true :=
  keyLe_trans _ _ _ h2 h1

lemma matchesSemverRE_empty : matchesSemverRE "" = false := rfl

/-- Claim C7: the oracle keeps exactly the non-nil tag names matching the
literal vMAJOR.MINOR.PATCH shape (which precludes any prerelease or build
suffix); when none match the result is empty; otherwise the result is one of
the matching tags and is maximal among them under the modelled x/mod
semantic-version comparison; and for a service the detector sets
LatestVersion to that maximum, leaves it empty (without error) when no tag
matched, and reports no error either way. -/
theorem C7_version_selection :
    (∀ (tags : List (Option String)) (name : String),
      name ∈ tagVersions tags ↔ some name ∈ tags ∧ matchesSemverRE name = true) ∧
    (∀ tags : List (Option String), latestSemverTag tags = "" ↔ tagVersions tags = []) ∧
    (∀ tags : List (Option String), tagVersions tags ≠ [] →
      latestSemverTag tags ∈ tagVersions tags ∧
      ∀ v ∈ tagVersions tags, modGe (latestSemverTag tags) v = true) ∧
    (∀ (ownerRepo : String → String × String)
        (listTags : String → Except String (List (Option String)))
        (svc : SvcVersion) (tags : List (Option String)),
      (ownerRepo svc.modulePath).1 ≠ "" → (ownerRepo svc.modulePath).2 ≠ "" →
      listTags svc.modulePath = .ok tags →
      detectAndSetCurrentVersions ownerRepo listTags [svc] =
        .ok [applyDetectedVersion svc tags] ∧
      (latestSemverTag tags = "" → applyDetectedVersion svc tags = svc) ∧
      (latestSemverTag tags ≠ "" →
        applyDetectedVersion svc tags = { svc with latestVersion := latestSemverTag tags })) := by
  have hmax : ∀ tags : List (Option String), tagVersions tags ≠ [] →
      latestSemverTag tags ∈ tagVersions tags ∧
      ∀ v ∈ tagVersions tags, modGe (latestSemverTag tags) v = true := by
    intro tags hne
    have hperm := List.mergeSort_perm (tagVersions tags) modGe
    have hsorted := List.sorted_mergeSort modGe_trans modGe_total (tagVersions tags)
    cases hs : (tagVersions tags).mergeSort modGe with
    | nil =>
      rw [hs] at hperm
      exact absurd hperm.nil_eq.symm hne
    | cons hd tl =>
      rw [hs] at hperm hsorted
      have hhd : latestSemverTag tags = hd := by
        simp [latestSemverTag, hs]
      have hmem : hd ∈ tagVersions tags := hperm.mem_iff.1 (List.mem_cons_self hd tl)
      rw [hhd]
      refine ⟨hmem, ?_⟩
      intro v hv
      rcases List.mem_cons.1 (hperm.mem_iff.2 hv) with h | h
      · subst h; exact modGe_refl v
      · exact (List.pairwise_cons.1 hsorted).1 v h
  refine ⟨mem_tagVersions, ?_, hmax, ?_⟩
  · intro tags
    constructor
    · intro h
      by_contra hne
      have h1 := (hmax tags hne).1
      rw [h] at h1
      have h2 := (mem_tagVersions tags "").1 h1
      rw [matchesSemverRE_empty] at h2
      exact absurd h2.2 (by simp)
    · intro h
      simp [latestSemverTag, h]
  · intro ownerRepo listTags svc tags h1 h2 h3
    refine ⟨?_, ?_, ?_⟩
    · rcases ho : ownerRepo svc.modulePath with ⟨ow, rp⟩
      rw [ho] at h1 h2
      simp only at h1 h2
      simp [detectAndSetCurrentVersions, ho, h1, h2, h3]
    · intro h
      simp [applyDetectedVersion, h]
    · intro h
      simp [applyDetectedVersion, h]

/-- The spec's example tag list. -/
def exTags : List (Option String) :=
  [some "v1.2.3", some "v1.2.0", some "v1.2.3-beta", some "not-a-tag"]

/-- Witness for C7_version_selection at the spec's example: the selected tag
is among the matching ones, maximal, and the detector installs it. -/
theorem C7_version_selection_witness :
    latestSemverTag exTags ∈ tagVersions exTags ∧
    detectAndSetCurrentVersions (fun _ => ("x", "b")) (fun _ => .ok exTags)
        [⟨"github.com/x/b", ""⟩] =
      .ok [applyDetectedVersion ⟨"github.com/x/b", ""⟩ exTags] :=
  ⟨(C7_version_selection.2.2.1 exTags (by decide)).1,
    (C7_version_selection.2.2.2 (fun _ => ("x", "b")) (fun _ => .ok exTags)
      ⟨"github.com/x/b", ""⟩ exTags (by decide) (by decide) rfl).1⟩

/-! ## Claim C6 -/

/-- The parse obligation of one edge: whenever the dependency resolves and
carries a non-empty LatestVersion, both the pinned and the latest version
strings must parse. -/
def edgeParses (g : Graph) (de : String × DepEdge) : Bool :=
  match resolve g de.2.service with
  | none => true
  | some ds =>
    ds.latestVersion == "" ||
      ((semverNewVersion de.2.currentVersion).isSome
        && (semverNewVersion ds.latestVersion).isSome)

/-- The parse obligation of one index entry. -/
def entryParses (g : Graph) (pr : String × Option Nat) : Bool :=
  match resolve g pr.2 with
  | none => true
  | some svc => svc.dependencies.all (edgeParses g)

/-- The hypothesis of the mismatch law: every comparison Check will attempt
parses on both sides. -/
def GraphParses (g : Graph) : Bool :=
  g.index.all (entryParses g)

/-- The expected mismatch entries of one service's edges. -/
def depsMismatches (g : Graph) (sp : String) (deps : List (String × DepEdge)) :
    List ((String × String) × Mismatch) :=
  deps.filterMap fun de =>
    match resolve g de.2.service with
    | none => none
    | some ds =>
      if ds.latestVersion = "" then none
      else if semverLtStr de.2.currentVersion ds.latestVersion then
        some ((sp, de.1), ⟨de.2.currentVersion, ds.latestVersion⟩)
      else none

/-- The expected mismatch entries of one index entry. -/
def entryMismatches (g : Graph) (pr : String × Option Nat) :
    List ((String × String) × Mismatch) :=
  match resolve g pr.2 with
  | none => []
  | some svc => depsMismatches g pr.1 svc.dependencies

/-- The expected output of Check on a graph that satisfies GraphParses. -/
def graphMismatches (g : Graph) : List ((String × String) × Mismatch) :=
  (g.index.map (entryMismatches g)).flatten

/-- The mismatch law's right-hand side: the graph has an edge from s to d
whose pinned version is strictly below d's non-empty latest version. -/
def MismatchWitness (g : Graph) (s d : String) (m : Mismatch) : Prop :=
  ∃ ref svc e ds,
    (s, ref) ∈ g.index ∧ resolve g ref = some svc ∧
    (d, e) ∈ svc.dependencies ∧ resolve g e.service = some ds ∧
    ds.latestVersion ≠ "" ∧ semverLtStr e.currentVersion ds.latestVersion = true ∧
    m = ⟨e.currentVersion, ds.latestVersion⟩

lemma checkDeps_eq (g : Graph) (sp : String) :
    ∀ deps : List (String × DepEdge), deps.all (edgeParses g) = true →
      checkDeps g sp deps = .ok (depsMismatches g sp deps) := by
  intro deps
  induction deps with
  | nil => intro _; rfl
  | cons de rest ih =>
    intro h
    rw [List.all_cons, Bool.and_eq_true] at h
    obtain ⟨hde, hrest⟩ := h
    rcases de with ⟨dp, e⟩
    cases hres : resolve g e.service with
    | none =>
      simp only [checkDeps, hres]
      rw [ih hrest]
      simp only [depsMismatches, List.filterMap_cons, hres]
    | some ds =>
      by_cases hlv : ds.latestVersion = ""
      · simp only [checkDeps, hres, if_pos hlv]
        rw [ih hrest]
        simp only [depsMismatches, List.filterMap_cons, hres, if_pos hlv]
      · have hp : (semverNewVersion e.currentVersion).isSome = true ∧
            (semverNewVersion ds.latestVersion).isSome = true := by
          simp only [edgeParses, hres, Bool.or_eq_true, Bool.and_eq_true] at hde
          rcases hde with hde | hde
          · exact absurd (by simpa using hde) hlv
          · exact hde
        obtain ⟨a, ha⟩ := Option.isSome_iff_exists.1 hp.1
        obtain ⟨b, hb⟩ := Option.isSome_iff_exists.1 hp.2
        have hlt : semverLtStr e.currentVersion ds.latestVersion = semverLt a b := by
          simp [semverLtStr, ha, hb]
        simp only [checkDeps, hres, if_neg hlv, ha, hb]
        rw [ih hrest]
        simp only [depsMismatches, List.filterMap_cons, hres, if_neg hlv, hlt]
        by_cases hab : semverLt a b = true
        · simp [hab]
        · simp [hab]

lemma checkAll_eq (g : Graph) :
    ∀ l : List (String × Option Nat), l.all (entryParses g) = true →
      checkAll g l = .ok ((l.map (entryMismatches g)).flatten) := by
  intro l
  induction l with
  | nil => intro _; rfl
  | cons pr rest ih =>
    intro h
    rw [List.all_cons, Bool.and_eq_true] at h
    obtain ⟨hpr, hrest⟩ := h
    rcases pr with ⟨sp, ref⟩
    cases hres : resolve g ref with
    | none =>
      simp only [checkAll, hres]
      rw [ih hrest]
      simp only [List.map_cons, List.flatten_cons, entryMismatches, hres, List.nil_append]
    | some svc =>
      have hdeps : svc.dependencies.all (edgeParses g) = true := by
        simp only [entryParses, hres] at hpr
        exact hpr
      simp only [checkAll, hres, checkDeps_eq g sp svc.dependencies hdeps]
      rw [ih hrest]
      simp only [List.map_cons, List.flatten_cons, entryMismatches, hres]

lemma mem_depsMismatches (g : Graph) (sp s d : String) (m : Mismatch)
    (deps : List (String × DepEdge)) :
    ((s, d), m) ∈ depsMismatches g sp deps ↔
      s = sp ∧ ∃ e ds, (d, e) ∈ deps ∧ resolve g e.service = some ds ∧
        ds.latestVersion ≠ "" ∧ semverLtStr e.currentVersion ds.latestVersion = true ∧
        m = ⟨e.currentVersion, ds.latestVersion⟩ := by
  simp only [depsMismatches, List.mem_filterMap]
  constructor
  · rintro ⟨de, hde, heq⟩
    rcases de with ⟨dp, e⟩
    cases hres : resolve g e.service with
    | none => rw [hres] at heq; simp at heq
    | some ds =>
      simp only [hres] at heq
      by_cases hlv : ds.latestVersion = ""
      · rw [if_pos hlv] at heq; simp at heq
      · rw [if_neg hlv] at heq
        by_cases hlt : semverLtStr e.currentVersion ds.latestVersion = true
        · rw [if_pos hlt] at heq
          simp only [Option.some.injEq, Prod.mk.injEq] at heq
          obtain ⟨⟨hs, hd⟩, hm⟩ := heq
          subst hd
          exact ⟨hs.symm, e, ds, hde, hres, hlv, hlt, hm.symm⟩
        · rw [if_neg hlt] at heq; simp at heq
  · rintro ⟨hs, e, ds, hmem, hres, hlv, hlt, hm⟩
    subst hs; subst hm
    refine ⟨(d, e), hmem, ?_⟩
    simp only [hres]
    rw [if_neg hlv, if_pos hlt]

lemma mem_graphMismatches (g : Graph) (s d : String) (m : Mismatch) :
    ((s, d), m) ∈ graphMismatches g ↔ MismatchWitness g s d m := by
  simp only [graphMismatches, List.mem_flatten, List.mem_map]
  constructor
  · rintro ⟨l, ⟨pr, hpr, hl⟩, hmem⟩
    subst hl
    rcases pr with ⟨sp, ref⟩
    cases hres : resolve g ref with
    | none =>
      simp only [entryMismatches, hres] at hmem
      exact absurd hmem (List.not_mem_nil _)
    | some svc =>
      simp only [entryMismatches, hres] at hmem
      rw [mem_depsMismatches] at hmem
      obtain ⟨hs, e, ds, hd, hres2, hlv, hlt, hm⟩ := hmem
      subst hs
      exact ⟨ref, svc, e, ds, hpr, hres, hd, hres2, hlv, hlt, hm⟩
  · rintro ⟨ref, svc, e, ds, hidx, hres, hd, hres2, hlv, hlt, hm⟩
    refine ⟨entryMismatches g (s, ref), ⟨(s, ref), hidx, rfl⟩, ?_⟩
    simp only [entryMismatches, hres]
    rw [mem_depsMismatches]
    exact ⟨rfl, e, ds, hd, hres2, hlv, hlt, hm⟩

/-- Claim C6: on every graph whose comparable versions parse, Check succeeds,
and its output contains an entry keyed (servicePath, dependencyPath) with
value Mismatch{Actual, Latest} exactly when the corresponding edge has a
non-empty dependency LatestVersion strictly above the pinned CurrentVersion
under semantic-version ordering; edges with equal or greater pinned versions,
or with empty LatestVersion, produce no entry. -/
theorem C6_mismatch_law (g : Graph) (h : GraphParses g = true) :
    Check g = .ok (graphMismatches g) ∧
    ∀ s d m, ((s, d), m) ∈ graphMismatches g ↔ MismatchWitness g s d m :=
  ⟨checkAll_eq g g.index h, fun s d m => mem_graphMismatches g s d m⟩

/-- A concrete graph for the C6 witness: a pins b at v1.0.0 while b's latest
is v1.2.0. -/
def graphC6 : Graph :=
  ⟨[("github.com/x/a", some 0), ("github.com/x/b", some 1)],
    [⟨"github.com/x/a", [("github.com/x/b", ⟨some 1, "v1.0.0"⟩)], ""⟩,
      ⟨"github.com/x/b", [], "v1.2.0"⟩]⟩

/-- Witness for C6_mismatch_law: the concrete graph type-checks the law and
the expected mismatch entry is present. -/
theorem C6_mismatch_law_witness :
    Check graphC6 = .ok (graphMismatches graphC6) ∧
    (("github.com/x/a", "github.com/x/b"), Mismatch.mk "v1.0.0" "v1.2.0") ∈
      graphMismatches graphC6 :=
  ⟨(C6_mismatch_law graphC6 (by decide)).1,
    ((C6_mismatch_law graphC6 (by decide)).2 "github.com/x/a" "github.com/x/b"
      ⟨"v1.0.0", "v1.2.0"⟩).mpr
      ⟨some 0, ⟨"github.com/x/a", [("github.com/x/b", ⟨some 1, "v1.0.0"⟩)], ""⟩,
        ⟨some 1, "v1.0.0"⟩, ⟨"github.com/x/b", [], "v1.2.0"⟩,
        by decide, rfl, by decide, rfl, by decide, by decide, rfl⟩⟩

end Conductor
